import Mathlib

/-!
Verification development for the dynamic tool registration server in
`src/mcp/server.py` of the SkyWorkAI repository.  The server loads tool
descriptors (name, description, script body) from a JSON registry file,
strips code-fence markers from each script, executes it with Python's
`exec` into one shared module-level namespace dictionary, looks the
declared name up in that dictionary, and registers the resulting callable
with the FastMCP front end.  The embedding below mirrors that code; the
semantics of the external Python `exec` builtin is a parameter (`PyExec`),
and the FastMCP registry is modelled from the spec as an upsert table.
-/

namespace SkyWorkMCP

/-- Python values as far as the tool server distinguishes them: `None`,
callable objects (carrying the signature string that `inspect.signature`
reports for them), and any other, non-callable value. -/
inductive PyVal where
  | pyNone : PyVal
  | callable (sig : String) : PyVal
  | plain (val : String) : PyVal
deriving DecidableEq

/-- Observable effect of running `exec(source, namespace)` in Python: the
sequence of dictionary writes the execution performs, in order, and whether
it raises an exception after performing them (writes made before the raise
persist in the dictionary, matching CPython behaviour). -/
structure ExecEffect where
  updates : List (String × PyVal)
  raises : Bool
deriving DecidableEq

/-- The shared execution namespace `_mcp_tools_namespace` (line 26 of
`src/mcp/server.py`): a Python dict from symbol name to value. -/
abbrev Namespace := List (String × PyVal)

/-- Semantics of the Python `exec` builtin, which is external to the
repository: given the normalized source text and the current contents of
the shared namespace dictionary, the effect the execution has.  The server
code is embedded parametrically over this oracle; concrete instances in
the witnesses model concrete Python scripts. -/
abbrev PyExec := String → Namespace → ExecEffect

/-- Dictionary lookup, `d.get(k, None)` in Python. -/
def lookupA {α : Type} : List (String × α) → String → Option α
  | [], _ => none
  | kv :: rest, k => if kv.1 = k then some kv.2 else lookupA rest k

/-- Dictionary write `d[k] = v` in Python: replaces the binding in place if
the key is present, appends it otherwise. -/
def insertA {α : Type} : List (String × α) → String → α → List (String × α)
  | [], k, v => [(k, v)]
  | kv :: rest, k, v => if kv.1 = k then (k, v) :: rest else kv :: insertA rest k v

/-- Applies a sequence of dictionary writes in order (later writes to the
same key win, as in a Python dict). -/
def applyUpdatesA {α : Type} : List (String × α) → List (String × α) → List (String × α)
  | m, [] => m
  | m, kv :: rest => applyUpdatesA (insertA m kv.1 kv.2) rest

/-- The value of the last write to key `k` in a sequence of dictionary
writes, if any. -/
def lastVal {α : Type} : List (String × α) → String → Option α
  | [], _ => none
  | kv :: rest, k =>
    match lastVal rest k with
    | some v => some v
    | none => if kv.1 = k then some kv.2 else none

/-- The keys of an association list, in order. -/
def keysOf {α : Type} (m : List (String × α)) : List String := m.map Prod.fst

/-- Whether a key is bound in an association list. -/
def hasKey {α : Type} (m : List (String × α)) (k : String) : Bool := (lookupA m k).isSome

/-- Fueled worker for `replaceStr`; scans left to right, replacing each
non-overlapping occurrence of `pat` and continuing after it, exactly as
Python `str.replace` does.  Fuel at least the length of the scanned list
suffices when `pat` is nonempty, because every step consumes at least one
character. -/
def replaceAllAux (pat rep : List Char) : Nat → List Char → List Char
  | _, [] => []
  | 0, l => l
  | fuel + 1, c :: cs =>
    if pat.isPrefixOf (c :: cs) then
      rep ++ replaceAllAux pat rep fuel ((c :: cs).drop pat.length)
    else
      c :: replaceAllAux pat rep fuel cs

/-- List-level form of Python `str.replace` with fuel set to the input
length, which is always enough for a nonempty pattern. -/
def listReplaceAll (pat rep l : List Char) : List Char :=
  replaceAllAux pat rep l.length l

/-- Python `s.replace(pat, rep)`: replaces every non-overlapping occurrence
of `pat`, scanning left to right without rescanning the replacement.  Only
used with nonempty patterns, as in the source. -/
def replaceStr (s pat rep : String) : String :=
  ⟨listReplaceAll pat.data rep.data s.data⟩

/-- Python `s.startswith(pre)`. -/
def startsWithStr (s pre : String) : Bool := pre.data.isPrefixOf s.data

/-- Python `s.endswith(suf)`. -/
def endsWithStr (s suf : String) : Bool := suf.data.isSuffixOf s.data

/-- All positions (possibly overlapping) at which `pat` occurs in the
scanned list, offset by the accumulator `i`.  Used to state side conditions
about marker occurrences decidably. -/
def findOccs (pat : List Char) : List Char → Nat → List Nat
  | [], _ => []
  | c :: cs, i => (if pat.isPrefixOf (c :: cs) then [i] else []) ++ findOccs pat cs (i + 1)

/-- The literal opening marker of a fenced source block (line 37). -/
def openFence : String := "```python"

/-- The literal closing marker of a fenced source block (line 39). -/
def closeFence : String := "```"

/-- Lines 37–40 of `src/mcp/server.py`: if the script starts with the
opening fence marker, every occurrence of the opening marker is removed by
`str.replace`; if the result ends with the closing marker, every occurrence
of the closing marker is removed likewise. -/
def normalizeScriptContent (s : String) : String :=
  let s1 := if startsWithStr s openFence then replaceStr s openFence "" else s
  if endsWithStr s1 closeFence then replaceStr s1 closeFence "" else s1

/-- The behaviour the claim describes for normalization: strip exactly one
leading opening marker and exactly one trailing closing marker, leaving the
rest of the text unchanged.  Stated from the claim's words, for comparison
with `normalizeScriptContent`, which is embedded from the source. -/
def specStripOneMarker (s : String) : String :=
  let s1 := if startsWithStr s openFence then ⟨s.data.drop openFence.data.length⟩ else s
  if endsWithStr s1 closeFence then ⟨s1.data.take (s1.data.length - closeFence.data.length)⟩
  else s1

/-- One entry of the tool registry JSON file: all three fields may be
absent (`dict.get` with a default is used for each, lines 33–35). -/
structure ScriptInfo where
  name : Option String
  description : Option String
  script_content : Option String
deriving DecidableEq

/-- Line 33: `script_info.get("name", "UnnamedTool")`. -/
def toolNameOf (info : ScriptInfo) : String := info.name.getD "UnnamedTool"

/-- Line 34: `script_info.get("description", "No description provided.")`. -/
def toolDescriptionOf (info : ScriptInfo) : String :=
  info.description.getD "No description provided."

/-- Line 35: `script_info.get("script_content", "")`. -/
def toolScriptOf (info : ScriptInfo) : String := info.script_content.getD ""

/-- The diagnostic messages the server can print, one constructor per
`print` / `traceback.print_exc` site in `src/mcp/server.py`. -/
inductive OutEvent where
  | registering (name : String)
  | execError (name : String)
  | execTraceback
  | symbolNotFound (name : String)
  | signatureInfo (name sig : String)
  | registeredOk (name : String)
  | registerError (name : String)
  | registerTraceback
  | fileNotFoundMsg (path : String)
  | jsonDecodeMsg (path : String)
  | unexpectedErrorMsg
  | allRegisteredMsg
  | registeredListMsg (names : List String)
deriving DecidableEq

/-- Output channels of the process.  The JSON-RPC protocol runs on stdout;
diagnostics are supposed to go to stderr. -/
inductive Channel where
  | stdout
  | stderr
deriving DecidableEq

/-- The channel each diagnostic is written to.  Every print site in
`src/mcp/server.py` passes `file=sys.stderr`, so every event goes to the
stderr side channel. -/
def channelOf : OutEvent → Channel
  | OutEvent.registering _ => Channel.stderr
  | OutEvent.execError _ => Channel.stderr
  | OutEvent.execTraceback => Channel.stderr
  | OutEvent.symbolNotFound _ => Channel.stderr
  | OutEvent.signatureInfo _ _ => Channel.stderr
  | OutEvent.registeredOk _ => Channel.stderr
  | OutEvent.registerError _ => Channel.stderr
  | OutEvent.registerTraceback => Channel.stderr
  | OutEvent.fileNotFoundMsg _ => Channel.stderr
  | OutEvent.jsonDecodeMsg _ => Channel.stderr
  | OutEvent.unexpectedErrorMsg => Channel.stderr
  | OutEvent.allRegisteredMsg => Channel.stderr
  | OutEvent.registeredListMsg _ => Channel.stderr

/-- Modelled from the spec: a registered tool as FastMCP stores it — the
descriptor's description, the callable, and the signature reported by
`inspect.signature` (the FastMCP library itself is not part of `src/`). -/
structure RegisteredTool where
  description : String
  fn : PyVal
  sig : String
deriving DecidableEq

/-- Modelled from the spec: the FastMCP capability table, a mapping from
tool name to registered tool with upsert semantics. -/
abbrev Registry := List (String × RegisteredTool)

/-- Which control-flow path `register_tool_from_script` took for one
descriptor: the `except` branch around `exec` (line 48), the
`tool_function is None` early return (line 56), the `except` branch around
signature inspection and `mcp.tool` (line 75), or successful registration. -/
inductive RegOutcome where
  | execFailed
  | symbolNotFound
  | registerFailed
  | registered
deriving DecidableEq

/-- Python `inspect.signature` (line 64): returns the signature of a
callable and raises `TypeError` for `None` or any non-callable object. -/
def inspectSignature : PyVal → Except Unit String
  | PyVal.callable sig => Except.ok sig
  | _ => Except.error ()

/-- Whether an optional namespace value is a callable. -/
def isCallableVal : Option PyVal → Bool
  | some (PyVal.callable _) => true
  | _ => false

/-- The process state the server threads through registration: the shared
execution namespace, the FastMCP registry, and the diagnostics emitted so
far (in order). -/
structure SystemState where
  ns : Namespace
  registry : Registry
  trace : List OutEvent
deriving DecidableEq

/-- State at process start: empty namespace dict, empty registry, nothing
printed. -/
def initialState : SystemState := ⟨[], [], []⟩

/-- The effect of `exec(script_content, _mcp_tools_namespace)` at line 47
for one descriptor in a given state. -/
def materializeEffect (pyExec : PyExec) (st : SystemState) (info : ScriptInfo) : ExecEffect :=
  pyExec (normalizeScriptContent (toolScriptOf info)) st.ns

/-- The shared namespace right after the `exec` call for one descriptor
(its dictionary writes applied in order, whether or not it then raised). -/
def execNs (pyExec : PyExec) (st : SystemState) (info : ScriptInfo) : Namespace :=
  applyUpdatesA st.ns (materializeEffect pyExec st info).updates

/-- Lines 54–79 of `src/mcp/server.py`: look the declared name up with
`.get(name, None)`; if the result is `None` (name absent, or bound to
`None`) print the not-found diagnostic and skip; otherwise inspect the
signature and call `mcp.tool` inside a `try` block whose `except` prints a
gated error message and then an ungated traceback.  Returns the updated
registry, the diagnostics this stage prints, and the outcome taken. -/
def resolveAndRegister (debug : Bool) (name description : String)
    (ns : Namespace) (registry : Registry) : Registry × List OutEvent × RegOutcome :=
  match lookupA ns name with
  | none =>
      (registry, (if debug then [OutEvent.symbolNotFound name] else []),
       RegOutcome.symbolNotFound)
  | some PyVal.pyNone =>
      (registry, (if debug then [OutEvent.symbolNotFound name] else []),
       RegOutcome.symbolNotFound)
  | some v =>
      match inspectSignature v with
      | Except.error _ =>
          (registry,
           (if debug then [OutEvent.registerError name] else []) ++ [OutEvent.registerTraceback],
           RegOutcome.registerFailed)
      | Except.ok sig =>
          (insertA registry name ⟨description, v, sig⟩,
           (if debug then [OutEvent.signatureInfo name sig, OutEvent.registeredOk name] else []),
           RegOutcome.registered)

/-- Lines 28–79 of `src/mcp/server.py`, `register_tool_from_script`: read
the three fields with defaults, strip fence markers, print the gated
banner, run `exec` catching any exception (abandoning the descriptor on
failure), then resolve and register.  Total by construction because the
code catches every exception along this path. -/
def register_tool_from_script (pyExec : PyExec) (debug : Bool)
    (st : SystemState) (info : ScriptInfo) : SystemState × RegOutcome :=
  if (materializeEffect pyExec st info).raises then
    (⟨execNs pyExec st info, st.registry,
      st.trace ++ ((if debug then [OutEvent.registering (toolNameOf info)] else []) ++
        (if debug then [OutEvent.execError (toolNameOf info), OutEvent.execTraceback] else []))⟩,
     RegOutcome.execFailed)
  else
    (⟨execNs pyExec st info,
      (resolveAndRegister debug (toolNameOf info) (toolDescriptionOf info)
        (execNs pyExec st info) st.registry).1,
      st.trace ++ ((if debug then [OutEvent.registering (toolNameOf info)] else []) ++
        (resolveAndRegister debug (toolNameOf info) (toolDescriptionOf info)
          (execNs pyExec st info) st.registry).2.1)⟩,
     (resolveAndRegister debug (toolNameOf info) (toolDescriptionOf info)
       (execNs pyExec st info) st.registry).2.2)

/-- The state after processing one descriptor. -/
def stepState (pyExec : PyExec) (debug : Bool) (st : SystemState) (info : ScriptInfo) :
    SystemState :=
  (register_tool_from_script pyExec debug st info).1

/-- Lines 91–92 of `src/mcp/server.py`: the `for` loop of `register_tools`,
awaiting `register_tool_from_script` for each descriptor in file order. -/
def register_tools_loop (pyExec : PyExec) (debug : Bool) :
    SystemState → List ScriptInfo → SystemState
  | st, [] => st
  | st, info :: rest =>
      register_tools_loop pyExec debug (stepState pyExec debug st info) rest

/-- How loading the registry JSON file can fail: `FileNotFoundError`,
`json.JSONDecodeError`, or any other exception (for example a top-level
structure that is not a sequence of objects), matching the three `except`
clauses at lines 94–101. -/
inductive LoadError where
  | fileNotFound
  | jsonDecodeFailed
  | otherFailure
deriving DecidableEq

/-- Lines 81–109 of `src/mcp/server.py`, `register_tools`: on a successful
load, run the registration loop over the descriptor list; on any load
failure, print a gated diagnostic and fall through.  Afterwards the
function prints the gated completion message and the gated list of
registered tool names from `mcp.get_tools()`.  Total: every exception is
caught by the `try`/`except` clauses. -/
def register_tools (pyExec : PyExec) (debug : Bool) (script_info_path : String)
    (load : Except LoadError (List ScriptInfo)) (st : SystemState) : SystemState :=
  let st1 :=
    match load with
    | Except.ok infos => register_tools_loop pyExec debug st infos
    | Except.error LoadError.fileNotFound =>
        { st with trace := st.trace ++ (if debug then [OutEvent.fileNotFoundMsg script_info_path] else []) }
    | Except.error LoadError.jsonDecodeFailed =>
        { st with trace := st.trace ++ (if debug then [OutEvent.jsonDecodeMsg script_info_path] else []) }
    | Except.error LoadError.otherFailure =>
        { st with trace := st.trace ++ (if debug then [OutEvent.unexpectedErrorMsg] else []) }
  { st1 with
    trace := st1.trace ++
      (if debug then [OutEvent.allRegisteredMsg, OutEvent.registeredListMsg (keysOf st1.registry)] else []) }

/-- Lines 111–114 of `src/mcp/server.py`, the `__main__` block: run
`register_tools` to completion and then start the FastMCP front end.  The
returned flag records that `mcp.run()` is reached; it is reached
unconditionally because `register_tools` never raises. -/
def serverMain (pyExec : PyExec) (debug : Bool) (script_info_path : String)
    (load : Except LoadError (List ScriptInfo)) : SystemState × Bool :=
  (register_tools pyExec debug script_info_path load initialState, true)

/-- A descriptor is valid at a namespace when its script evaluates without
raising and leaves its declared name bound to a callable. -/
def validAt (pyExec : PyExec) (info : ScriptInfo) (ns : Namespace) : Prop :=
  (pyExec (normalizeScriptContent (toolScriptOf info)) ns).raises = false ∧
  isCallableVal
    (lookupA (applyUpdatesA ns (pyExec (normalizeScriptContent (toolScriptOf info)) ns).updates)
      (toolNameOf info)) = true

instance (pyExec : PyExec) (info : ScriptInfo) (ns : Namespace) :
    Decidable (validAt pyExec info ns) := by
  unfold validAt
  infer_instance

/-- The registry upsert one descriptor performs when its evaluation effect
does not depend on the namespace contents: computed against the empty
namespace as representative. -/
def regAction (pyExec : PyExec) (info : ScriptInfo) : Option (String × RegisteredTool) :=
  if (pyExec (normalizeScriptContent (toolScriptOf info)) []).raises then none
  else
    match lastVal (pyExec (normalizeScriptContent (toolScriptOf info)) []).updates
        (toolNameOf info) with
    | none => none
    | some PyVal.pyNone => none
    | some v =>
      match inspectSignature v with
      | Except.error _ => none
      | Except.ok sig => some (toolNameOf info, ⟨toolDescriptionOf info, v, sig⟩)

/-- Applies one optional registry upsert. -/
def applyAction (r : Registry) : Option (String × RegisteredTool) → Registry
  | none => r
  | some nt => insertA r nt.1 nt.2

/-- Applies a list of optional registry upserts in order. -/
def applyActions : Registry → List (Option (String × RegisteredTool)) → Registry
  | r, [] => r
  | r, a :: rest => applyActions (applyAction r a) rest

/-! ## Concrete exec oracles used in witnesses and counterexamples

Each oracle models the effect of `exec` on one or two specific Python
scripts, identified here by short tag strings standing for their source
text. -/

/-- Models a batch of two scripts: tag `"BAD"` stands for a script that
assigns `p = "partial"` and then raises (for example `p = "partial"` on one
line and `1/0` on the next), and tag `"GOOD"` stands for
`def g(a, b): return a + b`. -/
def execOracleA : PyExec := fun s _ =>
  if s = "BAD" then ⟨[("p", PyVal.plain "partial")], true⟩
  else if s = "GOOD" then ⟨[("g", PyVal.callable "(a, b)")], false⟩
  else ⟨[], false⟩

/-- Models two scripts that assign the same symbol: tag `"A"` stands for
`h = 1` and tag `"B"` stands for `h = 2`. -/
def execOracleB : PyExec := fun s _ =>
  if s = "A" then ⟨[("h", PyVal.plain "1")], false⟩
  else if s = "B" then ⟨[("h", PyVal.plain "2")], false⟩
  else ⟨[], false⟩

/-- Models tag `"S"` standing for the script `f = 5`: it binds the declared
name to a non-callable value. -/
def execOracleNonCallable : PyExec := fun s _ =>
  if s = "S" then ⟨[("f", PyVal.plain "5")], false⟩ else ⟨[], false⟩

/-- Models tag `"N"` standing for the script `f = None`. -/
def execOracleBindsNone : PyExec := fun s _ =>
  if s = "N" then ⟨[("f", PyVal.pyNone)], false⟩ else ⟨[], false⟩

/-- Models scripts with no effect at all; in particular the empty script,
which defines no symbols and does not raise. -/
def execOracleEmpty : PyExec := fun _ _ => ⟨[], false⟩

/-- Models tag `"F"` standing for the namespace-sensitive Python script

    if 'flag' in globals():
        def g():
            return 1
    flag = True

whose effect depends on whether a previous run already set `flag` in the
shared namespace. -/
def execOracleFlag : PyExec := fun s ns =>
  if s = "F" then
    (if (lookupA ns "flag").isSome then
      ⟨[("g", PyVal.callable "()"), ("flag", PyVal.plain "True")], false⟩
    else ⟨[("flag", PyVal.plain "True")], false⟩)
  else ⟨[], false⟩

/-- Models tag `"G"` standing for `def g(): return 1`, whose effect is
independent of the namespace. -/
def execOracleStable : PyExec := fun s _ =>
  if s = "G" then ⟨[("g", PyVal.callable "()")], false⟩ else ⟨[], false⟩

/-! ## Lemmas about the dictionary model -/

theorem lookupA_insertA {α : Type} (m : List (String × α)) (k : String) (v : α) (k' : String) :
    lookupA (insertA m k v) k' = if k = k' then some v else lookupA m k' := by
  induction m with
  | nil => simp [insertA, lookupA]
  | cons kv rest ih =>
    by_cases h : kv.1 = k
    · subst h
      simp only [insertA, if_pos rfl, lookupA]
      by_cases h' : kv.1 = k' <;> simp [h']
    · simp only [insertA, if_neg h, lookupA]
      by_cases h' : kv.1 = k'
      · subst h'
        have hne : ¬k = kv.1 := fun hEq => h hEq.symm
        simp [if_neg hne]
      · simp [if_neg h', ih]

theorem lookupA_applyUpdatesA {α : Type} (us : List (String × α)) (m : List (String × α))
    (k : String) :
    lookupA (applyUpdatesA m us) k =
      match lastVal us k with
      | some v => some v
      | none => lookupA m k := by
  induction us generalizing m with
  | nil => simp [applyUpdatesA, lastVal]
  | cons kv rest ih =>
    simp only [applyUpdatesA, lastVal]
    rw [ih]
    cases h : lastVal rest k with
    | some v => simp
    | none =>
      simp only [lookupA_insertA]
      by_cases hk : kv.1 = k <;> simp [hk]

theorem hasKey_insertA {α : Type} (m : List (String × α)) (k : String) (v : α) (n : String)
    (h : hasKey m n = true) : hasKey (insertA m k v) n = true := by
  unfold hasKey at *
  rw [lookupA_insertA]
  by_cases hk : k = n <;> simp [hk, h]

theorem hasKey_insertA_self {α : Type} (m : List (String × α)) (k : String) (v : α) :
    hasKey (insertA m k v) k = true := by
  unfold hasKey
  rw [lookupA_insertA]
  simp

theorem mem_keysOf_insertA {α : Type} (m : List (String × α)) (k : String) (v : α) (n : String) :
    n ∈ keysOf (insertA m k v) ↔ n = k ∨ n ∈ keysOf m := by
  induction m with
  | nil => simp [insertA, keysOf]
  | cons kv rest ih =>
    by_cases h : kv.1 = k
    · subst h
      simp [insertA, keysOf]
    · simp only [insertA, if_neg h, keysOf, List.map_cons, List.mem_cons]
      rw [keysOf] at ih
      rw [ih]
      tauto

theorem keysOf_nodup_insertA {α : Type} (m : List (String × α)) (k : String) (v : α)
    (h : (keysOf m).Nodup) : (keysOf (insertA m k v)).Nodup := by
  induction m with
  | nil => simp [insertA, keysOf]
  | cons kv rest ih =>
    simp only [keysOf, List.map_cons, List.nodup_cons] at h
    by_cases hk : kv.1 = k
    · subst hk
      simpa [insertA, keysOf, List.nodup_cons] using h
    · simp only [insertA, if_neg hk, keysOf, List.map_cons, List.nodup_cons]
      refine ⟨?_, ih h.2⟩
      intro hmem
      rw [show (insertA rest k v).map Prod.fst = keysOf (insertA rest k v) from rfl] at hmem
      rw [mem_keysOf_insertA] at hmem
      rcases hmem with hmem | hmem
      · exact hk hmem
      · exact h.1 hmem

theorem keysOf_nodup_applyUpdatesA {α : Type} (us : List (String × α)) (m : List (String × α))
    (h : (keysOf m).Nodup) : (keysOf (applyUpdatesA m us)).Nodup := by
  induction us generalizing m with
  | nil => exact h
  | cons kv rest ih =>
    simp only [applyUpdatesA]
    exact ih _ (keysOf_nodup_insertA _ _ _ h)

/-! ## Lemmas about the `str.replace` model -/

theorem isPrefixOf_append_self (pat rest : List Char) :
    pat.isPrefixOf (pat ++ rest) = true := by
  induction pat with
  | nil => simp [List.isPrefixOf]
  | cons c cs ih => simp [List.isPrefixOf, ih]

theorem isSuffixOf_append_self (pre suf : List Char) :
    suf.isSuffixOf (pre ++ suf) = true := by
  unfold List.isSuffixOf
  rw [List.reverse_append]
  exact isPrefixOf_append_self _ _

theorem replaceAllAux_nil (pat rep : List Char) (f : Nat) :
    replaceAllAux pat rep f [] = [] := by
  cases f <;> rfl

theorem replaceAllAux_fuel (pat rep : List Char) (hp : pat ≠ []) :
    ∀ f1 : Nat, ∀ f2 : Nat, ∀ l : List Char, l.length ≤ f1 → l.length ≤ f2 →
      replaceAllAux pat rep f1 l = replaceAllAux pat rep f2 l := by
  intro f1
  induction f1 with
  | zero =>
    intro f2 l h1 _
    have : l = [] := List.length_eq_zero.mp (Nat.le_zero.mp h1)
    subst this
    rw [replaceAllAux_nil, replaceAllAux_nil]
  | succ f ih =>
    intro f2 l h1 h2
    cases l with
    | nil => rw [replaceAllAux_nil, replaceAllAux_nil]
    | cons c cs =>
      cases f2 with
      | zero =>
        exact absurd h2 (by simp)
      | succ g =>
        have hpat : 1 ≤ pat.length := by
          cases pat with
          | nil => exact absurd rfl hp
          | cons p ps => simp
        simp only [replaceAllAux]
        by_cases hpre : pat.isPrefixOf (c :: cs) = true
        · rw [if_pos hpre, if_pos hpre]
          have hdrop : ((c :: cs).drop pat.length).length ≤ cs.length := by
            rw [List.length_drop]
            simp only [List.length_cons]
            omega
          have hl1 : ((c :: cs).drop pat.length).length ≤ f := by
            have := Nat.succ_le_succ_iff.mp (by simpa using h1)
            omega
          have hl2 : ((c :: cs).drop pat.length).length ≤ g := by
            have := Nat.succ_le_succ_iff.mp (by simpa using h2)
            omega
          rw [ih _ _ hl1 hl2]
        · rw [if_neg hpre, if_neg hpre]
          have hc1 : cs.length ≤ f := Nat.succ_le_succ_iff.mp (by simpa using h1)
          have hc2 : cs.length ≤ g := Nat.succ_le_succ_iff.mp (by simpa using h2)
          rw [ih _ _ hc1 hc2]

theorem listReplaceAll_pos (pat rep : List Char) (c : Char) (cs : List Char)
    (hp : pat ≠ []) (hpre : pat.isPrefixOf (c :: cs) = true) :
    listReplaceAll pat rep (c :: cs) =
      rep ++ listReplaceAll pat rep ((c :: cs).drop pat.length) := by
  unfold listReplaceAll
  simp only [List.length_cons]
  rw [show replaceAllAux pat rep (cs.length + 1) (c :: cs)
        = if pat.isPrefixOf (c :: cs) then
            rep ++ replaceAllAux pat rep cs.length ((c :: cs).drop pat.length)
          else c :: replaceAllAux pat rep cs.length cs from rfl]
  rw [if_pos hpre]
  have hpat : 1 ≤ pat.length := by
    cases pat with
    | nil => exact absurd rfl hp
    | cons p ps => simp
  have hdrop : ((c :: cs).drop pat.length).length ≤ cs.length := by
    rw [List.length_drop]
    simp only [List.length_cons]
    omega
  rw [replaceAllAux_fuel pat rep hp cs.length ((c :: cs).drop pat.length).length _ hdrop le_rfl]

theorem listReplaceAll_neg (pat rep : List Char) (c : Char) (cs : List Char)
    (hpre : ¬ pat.isPrefixOf (c :: cs) = true) :
    listReplaceAll pat rep (c :: cs) = c :: listReplaceAll pat rep cs := by
  unfold listReplaceAll
  simp only [List.length_cons]
  rw [show replaceAllAux pat rep (cs.length + 1) (c :: cs)
        = if pat.isPrefixOf (c :: cs) then
            rep ++ replaceAllAux pat rep cs.length ((c :: cs).drop pat.length)
          else c :: replaceAllAux pat rep cs.length cs from rfl]
  rw [if_neg hpre]

theorem listReplaceAll_no_occur (pat rep : List Char) :
    ∀ l : List Char, ∀ i : Nat, findOccs pat l i = [] → listReplaceAll pat rep l = l := by
  intro l
  induction l with
  | nil => intro i _; rfl
  | cons c cs ih =>
    intro i h
    simp only [findOccs] at h
    by_cases hpre : pat.isPrefixOf (c :: cs) = true
    · rw [if_pos hpre] at h
      simp at h
    · rw [if_neg hpre] at h
      simp only [List.nil_append] at h
      rw [listReplaceAll_neg pat rep c cs hpre, ih (i + 1) h]

theorem listReplaceAll_end_occur (pat : List Char) (hp : pat ≠ []) :
    ∀ t : List Char, ∀ i : Nat, findOccs pat (t ++ pat) i = [t.length + i] →
      listReplaceAll pat [] (t ++ pat) = t := by
  intro t
  induction t with
  | nil =>
    intro i _
    cases hpc : pat with
    | nil => exact absurd hpc hp
    | cons p ps =>
      rw [List.nil_append]
      rw [listReplaceAll_pos (p :: ps) [] p ps (by simp) (by simp)]
      rw [show (p :: ps).drop (p :: ps).length = [] from List.drop_length _]
      rfl
  | cons c t' ih =>
    intro i h
    rw [List.cons_append] at h ⊢
    simp only [findOccs] at h
    by_cases hpre : pat.isPrefixOf (c :: (t' ++ pat)) = true
    · rw [if_pos hpre] at h
      simp only [List.singleton_append, List.cons.injEq, List.length_cons] at h
      obtain ⟨h1, _⟩ := h
      omega
    · rw [if_neg hpre] at h
      simp only [List.nil_append, List.length_cons] at h
      have h' : findOccs pat (t' ++ pat) (i + 1) = [t'.length + (i + 1)] := by
        rw [h]
        congr 1
        omega
      rw [listReplaceAll_neg pat [] c (t' ++ pat) hpre, ih (i + 1) h']

theorem listReplaceAll_head_occur (pat rep rest : List Char) (hp : pat ≠ []) :
    listReplaceAll pat rep (pat ++ rest) = rep ++ listReplaceAll pat rep rest := by
  cases hpc : pat with
  | nil => exact absurd hpc hp
  | cons p ps =>
    rw [List.cons_append]
    rw [listReplaceAll_pos (p :: ps) rep p (ps ++ rest) (by simp)
      (isPrefixOf_append_self (p :: ps) rest)]
    congr 1
    rw [show (p :: (ps ++ rest)).drop (p :: ps).length = rest from by
      rw [show (p :: (ps ++ rest)) = (p :: ps) ++ rest from rfl]
      exact List.drop_left _ _]

/-! ## Lemmas about one registration step -/

theorem resolveAndRegister_notFound (debug : Bool) (name description : String)
    (ns : Namespace) (registry : Registry)
    (h : lookupA ns name = none ∨ lookupA ns name = some PyVal.pyNone) :
    resolveAndRegister debug name description ns registry =
      (registry, (if debug then [OutEvent.symbolNotFound name] else []),
       RegOutcome.symbolNotFound) := by
  rcases h with h | h <;> · unfold resolveAndRegister; rw [h]

theorem resolveAndRegister_plain (debug : Bool) (name description : String)
    (ns : Namespace) (registry : Registry) (v : String)
    (h : lookupA ns name = some (PyVal.plain v)) :
    resolveAndRegister debug name description ns registry =
      (registry,
       (if debug then [OutEvent.registerError name] else []) ++ [OutEvent.registerTraceback],
       RegOutcome.registerFailed) := by
  unfold resolveAndRegister
  rw [h]
  rfl

theorem resolveAndRegister_callable (debug : Bool) (name description : String)
    (ns : Namespace) (registry : Registry) (sig : String)
    (h : lookupA ns name = some (PyVal.callable sig)) :
    resolveAndRegister debug name description ns registry =
      (insertA registry name ⟨description, PyVal.callable sig, sig⟩,
       (if debug then [OutEvent.signatureInfo name sig, OutEvent.registeredOk name] else []),
       RegOutcome.registered) := by
  unfold resolveAndRegister
  rw [h]
  rfl

theorem step_raises_eq (pyExec : PyExec) (debug : Bool) (st : SystemState) (info : ScriptInfo)
    (h : (materializeEffect pyExec st info).raises = true) :
    register_tool_from_script pyExec debug st info =
      (⟨execNs pyExec st info, st.registry,
        st.trace ++ ((if debug then [OutEvent.registering (toolNameOf info)] else []) ++
          (if debug then [OutEvent.execError (toolNameOf info), OutEvent.execTraceback] else []))⟩,
       RegOutcome.execFailed) := by
  unfold register_tool_from_script
  rw [h]
  simp

theorem step_no_raise_eq (pyExec : PyExec) (debug : Bool) (st : SystemState) (info : ScriptInfo)
    (h : (materializeEffect pyExec st info).raises = false) :
    register_tool_from_script pyExec debug st info =
      (⟨execNs pyExec st info,
        (resolveAndRegister debug (toolNameOf info) (toolDescriptionOf info)
          (execNs pyExec st info) st.registry).1,
        st.trace ++ ((if debug then [OutEvent.registering (toolNameOf info)] else []) ++
          (resolveAndRegister debug (toolNameOf info) (toolDescriptionOf info)
            (execNs pyExec st info) st.registry).2.1)⟩,
       (resolveAndRegister debug (toolNameOf info) (toolDescriptionOf info)
         (execNs pyExec st info) st.registry).2.2) := by
  unfold register_tool_from_script
  rw [h]
  simp

theorem step_ns (pyExec : PyExec) (debug : Bool) (st : SystemState) (info : ScriptInfo) :
    (stepState pyExec debug st info).ns = execNs pyExec st info := by
  unfold stepState
  cases h : (materializeEffect pyExec st info).raises
  · rw [step_no_raise_eq pyExec debug st info h]
  · rw [step_raises_eq pyExec debug st info h]

theorem step_registry_cases (pyExec : PyExec) (debug : Bool) (st : SystemState)
    (info : ScriptInfo) :
    (stepState pyExec debug st info).registry = st.registry ∨
    ∃ t, (stepState pyExec debug st info).registry =
      insertA st.registry (toolNameOf info) t := by
  unfold stepState
  cases h : (materializeEffect pyExec st info).raises
  · rw [step_no_raise_eq pyExec debug st info h]
    cases hl : lookupA (execNs pyExec st info) (toolNameOf info) with
    | none =>
      rw [resolveAndRegister_notFound _ _ _ _ _ (Or.inl hl)]
      exact Or.inl rfl
    | some v =>
      cases v with
      | pyNone =>
        rw [resolveAndRegister_notFound _ _ _ _ _ (Or.inr hl)]
        exact Or.inl rfl
      | plain s =>
        rw [resolveAndRegister_plain _ _ _ _ _ _ hl]
        exact Or.inl rfl
      | callable sig =>
        rw [resolveAndRegister_callable _ _ _ _ _ _ hl]
        exact Or.inr ⟨_, rfl⟩
  · rw [step_raises_eq pyExec debug st info h]
    exact Or.inl rfl

theorem step_hasKey_mono (pyExec : PyExec) (debug : Bool) (st : SystemState)
    (info : ScriptInfo) (n : String) (h : hasKey st.registry n = true) :
    hasKey (stepState pyExec debug st info).registry n = true := by
  rcases step_registry_cases pyExec debug st info with hc | ⟨t, hc⟩
  · rw [hc]; exact h
  · rw [hc]; exact hasKey_insertA _ _ _ _ h

theorem step_valid_registers (pyExec : PyExec) (debug : Bool) (st : SystemState)
    (info : ScriptInfo) (h : validAt pyExec info st.ns) :
    hasKey (stepState pyExec debug st info).registry (toolNameOf info) = true := by
  obtain ⟨h1, h2⟩ := h
  have hm : (materializeEffect pyExec st info).raises = false := h1
  unfold stepState
  rw [step_no_raise_eq pyExec debug st info hm]
  have h2' : isCallableVal (lookupA (execNs pyExec st info) (toolNameOf info)) = true := h2
  cases hl : lookupA (execNs pyExec st info) (toolNameOf info) with
  | none => rw [hl] at h2'; simp [isCallableVal] at h2'
  | some v =>
    cases v with
    | pyNone => rw [hl] at h2'; simp [isCallableVal] at h2'
    | plain s => rw [hl] at h2'; simp [isCallableVal] at h2'
    | callable sig =>
      rw [resolveAndRegister_callable _ _ _ _ _ _ hl]
      exact hasKey_insertA_self _ _ _

theorem step_trace_delta (pyExec : PyExec) (debug : Bool) (st : SystemState)
    (info : ScriptInfo) :
    ∃ d, (stepState pyExec debug st info).trace = st.trace ++ d := by
  unfold stepState
  cases h : (materializeEffect pyExec st info).raises
  · rw [step_no_raise_eq pyExec debug st info h]
    exact ⟨_, rfl⟩
  · rw [step_raises_eq pyExec debug st info h]
    exact ⟨_, rfl⟩

theorem step_trace_no_debug (pyExec : PyExec) (st : SystemState) (info : ScriptInfo) :
    (stepState pyExec false st info).trace = st.trace ∨
    (stepState pyExec false st info).trace = st.trace ++ [OutEvent.registerTraceback] := by
  unfold stepState
  cases h : (materializeEffect pyExec st info).raises
  · rw [step_no_raise_eq pyExec false st info h]
    cases hl : lookupA (execNs pyExec st info) (toolNameOf info) with
    | none =>
      rw [resolveAndRegister_notFound _ _ _ _ _ (Or.inl hl)]
      simp
    | some v =>
      cases v with
      | pyNone =>
        rw [resolveAndRegister_notFound _ _ _ _ _ (Or.inr hl)]
        simp
      | plain s =>
        rw [resolveAndRegister_plain _ _ _ _ _ _ hl]
        simp
      | callable sig =>
        rw [resolveAndRegister_callable _ _ _ _ _ _ hl]
        simp
  · rw [step_raises_eq pyExec false st info h]
    simp

/-! ## Lemmas about the registration loop -/

theorem loop_cons (pyExec : PyExec) (debug : Bool) (st : SystemState)
    (info : ScriptInfo) (rest : List ScriptInfo) :
    register_tools_loop pyExec debug st (info :: rest) =
      register_tools_loop pyExec debug (stepState pyExec debug st info) rest := rfl

theorem loop_append (pyExec : PyExec) (debug : Bool) (pre post : List ScriptInfo)
    (st : SystemState) :
    register_tools_loop pyExec debug st (pre ++ post) =
      register_tools_loop pyExec debug (register_tools_loop pyExec debug st pre) post := by
  induction pre generalizing st with
  | nil => rfl
  | cons info rest ih =>
    rw [List.cons_append, loop_cons, loop_cons, ih]

theorem loop_hasKey_mono (pyExec : PyExec) (debug : Bool) (infos : List ScriptInfo)
    (st : SystemState) (n : String) (h : hasKey st.registry n = true) :
    hasKey (register_tools_loop pyExec debug st infos).registry n = true := by
  induction infos generalizing st with
  | nil => exact h
  | cons info rest ih =>
    rw [loop_cons]
    exact ih _ (step_hasKey_mono pyExec debug st info n h)

theorem loop_trace_delta (pyExec : PyExec) (debug : Bool) (infos : List ScriptInfo)
    (st : SystemState) :
    ∃ d, (register_tools_loop pyExec debug st infos).trace = st.trace ++ d := by
  induction infos generalizing st with
  | nil => exact ⟨[], by simp [register_tools_loop]⟩
  | cons info rest ih =>
    rw [loop_cons]
    obtain ⟨d1, hd1⟩ := step_trace_delta pyExec debug st info
    obtain ⟨d2, hd2⟩ := ih (stepState pyExec debug st info)
    exact ⟨d1 ++ d2, by rw [hd2, hd1, List.append_assoc]⟩

theorem loop_trace_no_debug (pyExec : PyExec) (infos : List ScriptInfo) (st : SystemState)
    (h : ∀ e ∈ st.trace, e = OutEvent.registerTraceback) :
    ∀ e ∈ (register_tools_loop pyExec false st infos).trace,
      e = OutEvent.registerTraceback := by
  induction infos generalizing st with
  | nil => exact h
  | cons info rest ih =>
    rw [loop_cons]
    refine ih _ ?_
    rcases step_trace_no_debug pyExec st info with hc | hc
    · rw [hc]; exact h
    · rw [hc]
      intro e he
      rcases List.mem_append.mp he with he | he
      · exact h e he
      · simpa using he

theorem register_tools_registry (pyExec : PyExec) (debug : Bool) (path : String)
    (infos : List ScriptInfo) (st : SystemState) :
    (register_tools pyExec debug path (Except.ok infos) st).registry =
      (register_tools_loop pyExec debug st infos).registry := rfl

theorem applyActions_eq_applyUpdatesA (acts : List (Option (String × RegisteredTool))) :
    ∀ r : Registry, applyActions r acts = applyUpdatesA r (acts.filterMap id) := by
  induction acts with
  | nil => intro r; rfl
  | cons a rest ih =>
    intro r
    cases a with
    | none =>
      simp only [applyActions, applyAction, List.filterMap_cons_none]
      exact ih r
    | some nt =>
      simp only [applyActions, applyAction]
      rw [show (List.filterMap id (some nt :: rest)) = nt :: List.filterMap id rest from by
        simp]
      simp only [applyUpdatesA]
      exact ih _

theorem step_registry_action (pyExec : PyExec) (debug : Bool) (info : ScriptInfo)
    (hind : ∀ s ns1 ns2, pyExec s ns1 = pyExec s ns2)
    (hb : (pyExec (normalizeScriptContent (toolScriptOf info)) []).raises = true ∨
      ∃ v, lastVal (pyExec (normalizeScriptContent (toolScriptOf info)) []).updates
        (toolNameOf info) = some v)
    (st : SystemState) :
    (stepState pyExec debug st info).registry =
      applyAction st.registry (regAction pyExec info) := by
  have he : materializeEffect pyExec st info
      = pyExec (normalizeScriptContent (toolScriptOf info)) [] := hind _ st.ns []
  unfold stepState
  cases hr : (pyExec (normalizeScriptContent (toolScriptOf info)) []).raises with
  | true =>
    rw [step_raises_eq pyExec debug st info (by rw [he, hr])]
    unfold regAction
    rw [hr]
    rfl
  | false =>
    rcases hb with hb | ⟨v, hv⟩
    · rw [hr] at hb
      exact absurd hb (by simp)
    · rw [step_no_raise_eq pyExec debug st info (by rw [he, hr])]
      have hlook : lookupA (execNs pyExec st info) (toolNameOf info) = some v := by
        unfold execNs
        rw [he, lookupA_applyUpdatesA, hv]
      unfold regAction
      rw [hr]
      simp only [Bool.false_eq_true, if_false]
      rw [hv]
      cases v with
      | pyNone =>
        rw [resolveAndRegister_notFound _ _ _ _ _ (Or.inr hlook)]
        rfl
      | plain s =>
        rw [resolveAndRegister_plain _ _ _ _ _ _ hlook]
        rfl
      | callable sig =>
        rw [resolveAndRegister_callable _ _ _ _ _ _ hlook]
        rfl

theorem loop_registry_actions (pyExec : PyExec) (debug : Bool) (infos : List ScriptInfo)
    (hind : ∀ s ns1 ns2, pyExec s ns1 = pyExec s ns2)
    (hball : ∀ info ∈ infos,
      (pyExec (normalizeScriptContent (toolScriptOf info)) []).raises = true ∨
      ∃ v, lastVal (pyExec (normalizeScriptContent (toolScriptOf info)) []).updates
        (toolNameOf info) = some v) :
    ∀ st : SystemState,
      (register_tools_loop pyExec debug st infos).registry =
        applyActions st.registry (infos.map (regAction pyExec)) := by
  induction infos with
  | nil => intro st; rfl
  | cons info rest ih =>
    intro st
    rw [loop_cons]
    simp only [List.map_cons, applyActions]
    rw [ih (fun i hi => hball i (List.mem_cons_of_mem _ hi)) _]
    rw [step_registry_action pyExec debug info hind (hball info (List.mem_cons_self _ _)) st]

/-! ## Claims -/

/-- Claim C1: for every descriptor whose source body raises during
evaluation, that descriptor is abandoned and not registered (its step
leaves the registry unchanged), no exception escapes registration (the
embedded loop is a total function and continues with the remaining
descriptors exactly as if the failed descriptor had been skipped), and
every other valid descriptor in the same batch is still registered
successfully (its name ends up present in the registry). -/
theorem claim_C1_exec_failure_isolated (pyExec : PyExec) (debug : Bool)
    (st : SystemState) (d e : ScriptInfo) (pre2 post2 : List ScriptInfo)
    (hraise : (materializeEffect pyExec st d).raises = true)
    (hvalid : validAt pyExec e
      (register_tools_loop pyExec debug (stepState pyExec debug st d) pre2).ns) :
    (stepState pyExec debug st d).registry = st.registry
    ∧ register_tools_loop pyExec debug st (d :: (pre2 ++ e :: post2))
        = register_tools_loop pyExec debug (stepState pyExec debug st d) (pre2 ++ e :: post2)
    ∧ hasKey (register_tools_loop pyExec debug st (d :: (pre2 ++ e :: post2))).registry
        (toolNameOf e) = true := by
  refine ⟨?_, rfl, ?_⟩
  · unfold stepState
    rw [step_raises_eq pyExec debug st d hraise]
  · rw [loop_cons, loop_append]
    rw [show register_tools_loop pyExec debug
          (register_tools_loop pyExec debug (stepState pyExec debug st d) pre2) (e :: post2)
        = register_tools_loop pyExec debug
          (stepState pyExec debug
            (register_tools_loop pyExec debug (stepState pyExec debug st d) pre2) e) post2
      from rfl]
    exact loop_hasKey_mono _ _ _ _ _ (step_valid_registers _ _ _ _ hvalid)

/-- Witness for C1 at a concrete batch: the first script performs a partial
write and raises, the second defines its callable; the first leaves the
registry empty, the second still registers. -/
theorem claim_C1_witness :
    (stepState execOracleA false initialState ⟨some "b", none, some "BAD"⟩).registry = []
    ∧ hasKey (register_tools_loop execOracleA false initialState
        [⟨some "b", none, some "BAD"⟩, ⟨some "g", none, some "GOOD"⟩]).registry "g" = true := by
  have h := claim_C1_exec_failure_isolated execOracleA false initialState
    ⟨some "b", none, some "BAD"⟩ ⟨some "g", none, some "GOOD"⟩ [] [] (by decide) (by decide)
  exact ⟨h.1, h.2.2⟩

/-- Claim C2: the execution namespace is a single mapping shared across
all materialization calls: processing two descriptors in order threads the
state of the first into the second, a symbol last written by the first
evaluation is visible in the namespace the second evaluation receives, it
persists through any later descriptor whose evaluation does not write it,
and when the second evaluation writes the same symbol name the later
definition wins. -/
theorem claim_C2_shared_namespace (pyExec : PyExec) (debug : Bool) (st : SystemState)
    (d1 d2 : ScriptInfo) (k : String) (v w : PyVal)
    (h1 : lastVal (materializeEffect pyExec st d1).updates k = some v)
    (h2 : lastVal (materializeEffect pyExec (stepState pyExec debug st d1) d2).updates k
      = some w) :
    lookupA (stepState pyExec debug st d1).ns k = some v
    ∧ register_tools_loop pyExec debug st [d1, d2]
        = stepState pyExec debug (stepState pyExec debug st d1) d2
    ∧ (∀ d3 : ScriptInfo,
        lastVal (materializeEffect pyExec (stepState pyExec debug st d1) d3).updates k = none →
        lookupA (stepState pyExec debug (stepState pyExec debug st d1) d3).ns k = some v)
    ∧ lookupA (register_tools_loop pyExec debug st [d1, d2]).ns k = some w := by
  have hns1 : lookupA (stepState pyExec debug st d1).ns k = some v := by
    rw [step_ns]
    unfold execNs
    rw [lookupA_applyUpdatesA, h1]
  refine ⟨hns1, rfl, ?_, ?_⟩
  · intro d3 h3
    rw [step_ns]
    unfold execNs
    rw [lookupA_applyUpdatesA, h3]
    exact hns1
  · rw [show register_tools_loop pyExec debug st [d1, d2]
        = stepState pyExec debug (stepState pyExec debug st d1) d2 from rfl]
    rw [step_ns]
    unfold execNs
    rw [lookupA_applyUpdatesA, h2]

/-- Witness for C2 at a concrete pair: script `"A"` writes `h = 1`, which
the second call observes, and script `"B"` overwrites it with `h = 2`. -/
theorem claim_C2_witness :
    lookupA (stepState execOracleB false initialState ⟨some "x", none, some "A"⟩).ns "h"
      = some (PyVal.plain "1")
    ∧ lookupA (register_tools_loop execOracleB false initialState
        [⟨some "x", none, some "A"⟩, ⟨some "y", none, some "B"⟩]).ns "h"
      = some (PyVal.plain "2") := by
  have h := claim_C2_shared_namespace execOracleB false initialState
    ⟨some "x", none, some "A"⟩ ⟨some "y", none, some "B"⟩ "h"
    (PyVal.plain "1") (PyVal.plain "2") (by decide) (by decide)
  exact ⟨h.1, h.2.2.2⟩

/-- Counterexample for C3 as stated: script `"S"` (standing for `f = 5`)
evaluates successfully and binds the declared name `f` to a non-invocable
value, yet the step does not take the symbol-not-found path (the spec's
`SymbolNotFoundError`): the resolver passes the value through, signature
inspection raises inside the registration `try` block, and the descriptor
fails through the caught registration-error path.  It is still skipped and
the registry stays empty. -/
theorem claim_C3_counterexample :
    lookupA (execNs execOracleNonCallable initialState ⟨some "f", none, some "S"⟩) "f"
      = some (PyVal.plain "5")
    ∧ (register_tool_from_script execOracleNonCallable false initialState
        ⟨some "f", none, some "S"⟩).2 = RegOutcome.registerFailed
    ∧ RegOutcome.registerFailed ≠ RegOutcome.symbolNotFound
    ∧ (register_tool_from_script execOracleNonCallable false initialState
        ⟨some "f", none, some "S"⟩).1.registry = [] := by
  exact ⟨by decide, by decide, by decide, by decide⟩

/-- Claim C3, amended: after a successful evaluation, a declared name that
is absent from the namespace or bound to `None` fails resolution through
the symbol-not-found path; a name bound to a non-invocable value other
than `None` is passed through by the resolver and instead fails at the
registration step, where signature inspection raises and the error is
caught.  In every such case only that descriptor is skipped, the step
leaves the registry unchanged, and no entry appears for the name if none
was there before. -/
theorem claim_C3_amended (pyExec : PyExec) (debug : Bool) (st : SystemState)
    (info : ScriptInfo)
    (hok : (materializeEffect pyExec st info).raises = false)
    (hbad : lookupA (execNs pyExec st info) (toolNameOf info) = none
      ∨ lookupA (execNs pyExec st info) (toolNameOf info) = some PyVal.pyNone
      ∨ ∃ r, lookupA (execNs pyExec st info) (toolNameOf info) = some (PyVal.plain r)) :
    (register_tool_from_script pyExec debug st info).1.registry = st.registry
    ∧ ((lookupA (execNs pyExec st info) (toolNameOf info) = none
        ∨ lookupA (execNs pyExec st info) (toolNameOf info) = some PyVal.pyNone) →
       (register_tool_from_script pyExec debug st info).2 = RegOutcome.symbolNotFound)
    ∧ ((∃ r, lookupA (execNs pyExec st info) (toolNameOf info) = some (PyVal.plain r)) →
       (register_tool_from_script pyExec debug st info).2 = RegOutcome.registerFailed)
    ∧ (hasKey st.registry (toolNameOf info) = false →
       hasKey (register_tool_from_script pyExec debug st info).1.registry (toolNameOf info)
         = false) := by
  rw [step_no_raise_eq pyExec debug st info hok]
  rcases hbad with h | h | ⟨r, h⟩
  · rw [resolveAndRegister_notFound _ _ _ _ _ (Or.inl h)]
    refine ⟨rfl, fun _ => rfl, ?_, fun hk => hk⟩
    rintro ⟨r, hr⟩
    rw [h] at hr
    simp at hr
  · rw [resolveAndRegister_notFound _ _ _ _ _ (Or.inr h)]
    refine ⟨rfl, fun _ => rfl, ?_, fun hk => hk⟩
    rintro ⟨r, hr⟩
    rw [h] at hr
    simp at hr
  · rw [resolveAndRegister_plain _ _ _ _ _ _ h]
    refine ⟨rfl, ?_, fun _ => rfl, fun hk => hk⟩
    rintro (h' | h') <;> · rw [h] at h'; simp at h'

/-- Witness for C3 amended at a concrete input: an empty-effect script
leaves the declared name absent, the outcome is the symbol-not-found path
and the registry stays empty. -/
theorem claim_C3_witness :
    (register_tool_from_script execOracleEmpty false initialState
        ⟨some "f", none, some "S"⟩).2 = RegOutcome.symbolNotFound
    ∧ (register_tool_from_script execOracleEmpty false initialState
        ⟨some "f", none, some "S"⟩).1.registry = [] := by
  have h := claim_C3_amended execOracleEmpty false initialState ⟨some "f", none, some "S"⟩
    (by decide) (Or.inl (by decide))
  exact ⟨h.2.1 (Or.inl (by decide)), h.1⟩

/-- Counterexample for C4 as stated: on a source body that starts with the
opening marker and contains a second occurrence of it, the code removes
every occurrence (Python `str.replace` is global), not exactly one leading
and one trailing marker as the claim describes. -/
theorem claim_C4_counterexample :
    normalizeScriptContent "```python a ```python b```" = " a  b"
    ∧ specStripOneMarker "```python a ```python b```" = " a ```python b"
    ∧ normalizeScriptContent "```python a ```python b```"
        ≠ specStripOneMarker "```python a ```python b```" := by
  exact ⟨by decide, by decide, by decide⟩

/-- Claim C4, amended: normalization strips markers by global string
replacement — when the body starts with the opening marker, every
occurrence of the opening-marker string is removed, and when the result
ends with the closing marker, every occurrence of the closing-marker
string is removed.  Consequently, when the only occurrence of the opening
marker is the leading one and the only occurrence of the closing marker is
the trailing one, exactly those two markers are stripped and the rest of
the text is unchanged; and a body with no leading opening marker and no
trailing closing marker is normalized to itself, absence of markers being
no error. -/
theorem claim_C4_amended (s mid : String)
    (h1 : s.data = openFence.data ++ (mid.data ++ closeFence.data))
    (h2 : findOccs openFence.data (mid.data ++ closeFence.data) 0 = [])
    (h3 : findOccs closeFence.data (mid.data ++ closeFence.data) 0 = [mid.data.length]) :
    normalizeScriptContent s = mid
    ∧ ∀ u : String, startsWithStr u openFence = false → endsWithStr u closeFence = false →
        normalizeScriptContent u = u := by
  constructor
  · have hstart : startsWithStr s openFence = true := by
      unfold startsWithStr
      rw [h1]
      exact isPrefixOf_append_self _ _
    have hrep1 : replaceStr s openFence "" = ⟨mid.data ++ closeFence.data⟩ := by
      unfold replaceStr
      congr 1
      rw [h1]
      rw [show ("" : String).data = [] from rfl]
      rw [listReplaceAll_head_occur _ _ _ (by decide)]
      rw [List.nil_append]
      exact listReplaceAll_no_occur _ _ _ 0 h2
    have hend : endsWithStr ⟨mid.data ++ closeFence.data⟩ closeFence = true := by
      unfold endsWithStr
      exact isSuffixOf_append_self _ _
    have hrep2 : replaceStr ⟨mid.data ++ closeFence.data⟩ closeFence "" = mid := by
      unfold replaceStr
      apply String.ext
      rw [show ("" : String).data = [] from rfl]
      exact listReplaceAll_end_occur closeFence.data (by decide) mid.data 0 (by simp [h3])
    simp only [normalizeScriptContent]
    rw [if_pos hstart, hrep1, if_pos hend]
    exact hrep2
  · intro u hu1 hu2
    simp only [normalizeScriptContent]
    rw [if_neg (show ¬ startsWithStr u openFence = true by rw [hu1]; simp),
      if_neg (show ¬ endsWithStr u closeFence = true by rw [hu2]; simp)]

/-- Witness for C4 amended at a concrete fenced body with no interior
marker occurrences: exactly the leading and trailing markers are
stripped. -/
theorem claim_C4_witness :
    normalizeScriptContent "```pythonx = 1```" = "x = 1" :=
  (claim_C4_amended "```pythonx = 1```" "x = 1" (by decide) (by decide) (by decide)).1

/-- Counterexample for C5 as stated: with the debug flag unset, a
descriptor whose registration step raises (here because the declared name
is bound to a non-callable value, so signature inspection raises inside
the `try` block) still emits a traceback, because the
`traceback.print_exc(file=sys.stderr)` at line 79 sits outside the
`if os.getenv("DEBUG")` guard.  So registration is not silent with the
flag unset. -/
theorem claim_C5_counterexample :
    (register_tools execOracleNonCallable false "p"
        (Except.ok [⟨some "f", none, some "S"⟩]) initialState).trace
      = [OutEvent.registerTraceback]
    ∧ (register_tools execOracleNonCallable false "p"
        (Except.ok [⟨some "f", none, some "S"⟩]) initialState).trace ≠ [] := by
  exact ⟨by decide, by decide⟩

/-- Claim C5, amended: every diagnostic the registration path emits goes
to the stderr side channel, never to the protocol's stdout channel, and
with the debug flag unset the only diagnostic registration can emit is the
traceback printed when the registration step itself raises — that one
print sits outside the debug guard and is emitted regardless of the flag.
(Dispatch is handled by the FastMCP library outside `src/`.) -/
theorem claim_C5_amended (pyExec : PyExec) (path : String)
    (load : Except LoadError (List ScriptInfo)) :
    (∀ e ∈ (register_tools pyExec false path load initialState).trace,
      e = OutEvent.registerTraceback)
    ∧ ∀ debug : Bool, ∀ load2 : Except LoadError (List ScriptInfo),
        ∀ e ∈ (register_tools pyExec debug path load2 initialState).trace,
          channelOf e = Channel.stderr := by
  constructor
  · cases load with
    | ok infos =>
      intro e he
      have htr : (register_tools pyExec false path (Except.ok infos) initialState).trace
          = (register_tools_loop pyExec false initialState infos).trace := by
        simp [register_tools]
      rw [htr] at he
      exact loop_trace_no_debug pyExec infos initialState (by simp [initialState]) e he
    | error err =>
      cases err <;> · intro e he; simp [register_tools, initialState] at he
  · intro debug load2 e _
    cases e <;> rfl

/-- Claim C6: if the registry source file is missing or its top-level
structure is malformed, registration completes without raising (the
embedded `register_tools` is total, mirroring the `except` clauses at
lines 94–101 that catch `FileNotFoundError`, `json.JSONDecodeError` and
any other exception), the registry is left empty, and the protocol front
end still starts (the flag recording that `mcp.run()` is reached is true)
rather than the process exiting. -/
theorem claim_C6_load_failure_graceful (pyExec : PyExec) (debug : Bool) (path : String)
    (err : LoadError) :
    (serverMain pyExec debug path (Except.error err)).1.registry = []
    ∧ (serverMain pyExec debug path (Except.error err)).2 = true := by
  cases err <;> exact ⟨rfl, rfl⟩

/-- Counterexample for C7 as stated: the shared execution namespace
persists across `register_tools` invocations, so a script whose effect
depends on earlier runs can make a second identical run register a tool
the first did not.  With the namespace-sensitive script modelled by
`execOracleFlag` (`g` is defined only when `flag` is already present, and
`flag` is always set), the first run registers nothing while the second
identical run registers `g`, so calling twice does not yield the same
registry as calling once. -/
theorem claim_C7_counterexample :
    keysOf (register_tools execOracleFlag false "p"
        (Except.ok [⟨some "g", some "demo", some "F"⟩]) initialState).registry = []
    ∧ keysOf (register_tools execOracleFlag false "p"
        (Except.ok [⟨some "g", some "demo", some "F"⟩])
        (register_tools execOracleFlag false "p"
          (Except.ok [⟨some "g", some "demo", some "F"⟩]) initialState)).registry = ["g"] := by
  exact ⟨by decide, by decide⟩

/-- Claim C7, amended: re-registration is an upsert keyed by name with no
duplicate entries, and when every descriptor's evaluation effect is
independent of the namespace contents and every non-raising script writes
its own declared name, calling the registration entry point twice with the
identical descriptor sequence yields a registry with exactly the same
entries as calling it once.  Without these conditions the persistent
shared namespace can make a second call register tools the first did not
(see the counterexample). -/
theorem claim_C7_amended (pyExec : PyExec) (debug : Bool) (path : String)
    (infos : List ScriptInfo)
    (hind : ∀ s ns1 ns2, pyExec s ns1 = pyExec s ns2)
    (hball : ∀ info ∈ infos,
      (pyExec (normalizeScriptContent (toolScriptOf info)) []).raises = true ∨
      ∃ v, lastVal (pyExec (normalizeScriptContent (toolScriptOf info)) []).updates
        (toolNameOf info) = some v) :
    (∀ k, lookupA (register_tools pyExec debug path (Except.ok infos)
        (register_tools pyExec debug path (Except.ok infos) initialState)).registry k
      = lookupA (register_tools pyExec debug path (Except.ok infos) initialState).registry k)
    ∧ (keysOf (register_tools pyExec debug path (Except.ok infos)
        (register_tools pyExec debug path (Except.ok infos) initialState)).registry).Nodup := by
  have hreg : ∀ st : SystemState,
      (register_tools pyExec debug path (Except.ok infos) st).registry
        = applyUpdatesA st.registry ((infos.map (regAction pyExec)).filterMap id) := by
    intro st
    rw [register_tools_registry, loop_registry_actions pyExec debug infos hind hball st,
      applyActions_eq_applyUpdatesA]
  constructor
  · intro k
    rw [hreg (register_tools pyExec debug path (Except.ok infos) initialState),
      hreg initialState]
    simp only [lookupA_applyUpdatesA]
    cases h : lastVal ((infos.map (regAction pyExec)).filterMap id) k <;> simp [h]
  · rw [hreg (register_tools pyExec debug path (Except.ok infos) initialState),
      hreg initialState]
    exact keysOf_nodup_applyUpdatesA _ _
      (keysOf_nodup_applyUpdatesA _ _ (by simp [initialState, keysOf]))

/-- Witness for C7 amended at a concrete descriptor whose script effect is
namespace-independent and writes its own name: two identical runs agree on
the registry entry, and the keys are duplicate-free. -/
theorem claim_C7_witness :
    lookupA (register_tools execOracleStable false "p"
        (Except.ok [⟨some "g", none, some "G"⟩])
        (register_tools execOracleStable false "p"
          (Except.ok [⟨some "g", none, some "G"⟩]) initialState)).registry "g"
      = lookupA (register_tools execOracleStable false "p"
          (Except.ok [⟨some "g", none, some "G"⟩]) initialState).registry "g"
    ∧ (keysOf (register_tools execOracleStable false "p"
        (Except.ok [⟨some "g", none, some "G"⟩])
        (register_tools execOracleStable false "p"
          (Except.ok [⟨some "g", none, some "G"⟩]) initialState)).registry).Nodup := by
  have h := claim_C7_amended execOracleStable false "p" [⟨some "g", none, some "G"⟩]
    (fun s ns1 ns2 => rfl)
    (by
      intro info hi
      simp only [List.mem_singleton] at hi
      subst hi
      exact Or.inr ⟨PyVal.callable "()", by decide⟩)
  exact ⟨h.1 "g", h.2⟩

/-- Claim C8: descriptors are processed strictly in the order given by the
descriptor store: the registration loop satisfies the sequential
unfolding — every prefix is processed to completion and the resulting
state (namespace, registry and the diagnostics appended so far) is the
input to the remaining descriptors — and a run only ever appends to the
diagnostic trace. -/
theorem claim_C8_sequential_order (pyExec : PyExec) (debug : Bool) (st : SystemState)
    (pre post : List ScriptInfo) (info : ScriptInfo) (rest : List ScriptInfo) :
    register_tools_loop pyExec debug st (pre ++ post)
      = register_tools_loop pyExec debug (register_tools_loop pyExec debug st pre) post
    ∧ register_tools_loop pyExec debug st (info :: rest)
      = register_tools_loop pyExec debug (stepState pyExec debug st info) rest
    ∧ ∃ d, (register_tools_loop pyExec debug st (pre ++ post)).trace = st.trace ++ d := by
  exact ⟨loop_append pyExec debug pre post st, rfl,
    loop_trace_delta pyExec debug (pre ++ post) st⟩

/-- Claim C9 (implicit): a declared name bound to `None` after a
successful evaluation is handled by the very same `is None` check as an
absent name (line 56): in both cases the step produces exactly the same
result — namespace advanced by the script's writes, registry unchanged,
the same gated not-found diagnostic, and the symbol-not-found outcome — so
the resolver cannot distinguish a name bound to `None` from a missing
name. -/
theorem claim_C9_none_bound_as_absent (pyExec : PyExec) (debug : Bool) (st : SystemState)
    (info : ScriptInfo)
    (hok : (materializeEffect pyExec st info).raises = false)
    (hnone : lookupA (execNs pyExec st info) (toolNameOf info) = none
      ∨ lookupA (execNs pyExec st info) (toolNameOf info) = some PyVal.pyNone) :
    register_tool_from_script pyExec debug st info
      = (⟨execNs pyExec st info, st.registry,
          st.trace ++ ((if debug then [OutEvent.registering (toolNameOf info)] else []) ++
            (if debug then [OutEvent.symbolNotFound (toolNameOf info)] else []))⟩,
         RegOutcome.symbolNotFound) := by
  rw [step_no_raise_eq pyExec debug st info hok,
    resolveAndRegister_notFound _ _ _ _ _ hnone]

/-- Witness for C9 at a concrete input: script `"N"` (standing for
`f = None`) binds the declared name to `None`; the descriptor is skipped
with the symbol-not-found outcome and no registry entry. -/
theorem claim_C9_witness :
    register_tool_from_script execOracleBindsNone false initialState
        ⟨some "f", none, some "N"⟩
      = (⟨[("f", PyVal.pyNone)], [], []⟩, RegOutcome.symbolNotFound) := by
  have h := claim_C9_none_bound_as_absent execOracleBindsNone false initialState
    ⟨some "f", none, some "N"⟩ (by decide) (Or.inr (by decide))
  exact h

/-- Claim C10 (implicit): a descriptor missing any of its fields never
causes the step to raise — the name defaults to `"UnnamedTool"`, the
description to `"No description provided."`, the script body to the empty
string — and the empty body normalizes to itself, evaluates with no
effect, defines no symbol, so the descriptor is skipped at resolution and
the registry stays empty. -/
theorem claim_C10_missing_field_defaults (pyExec : PyExec) (debug : Bool)
    (hempty : pyExec "" [] = ⟨[], false⟩) :
    toolNameOf ⟨none, none, none⟩ = "UnnamedTool"
    ∧ toolDescriptionOf ⟨none, none, none⟩ = "No description provided."
    ∧ toolScriptOf ⟨none, none, none⟩ = ""
    ∧ normalizeScriptContent "" = ""
    ∧ (register_tool_from_script pyExec debug initialState ⟨none, none, none⟩).2
        = RegOutcome.symbolNotFound
    ∧ (register_tool_from_script pyExec debug initialState ⟨none, none, none⟩).1.registry
        = [] := by
  have hmat : materializeEffect pyExec initialState ⟨none, none, none⟩ = ⟨[], false⟩ := by
    unfold materializeEffect
    rw [show normalizeScriptContent (toolScriptOf ⟨none, none, none⟩) = "" from by decide]
    exact hempty
  have hlookup : lookupA (execNs pyExec initialState ⟨none, none, none⟩)
      (toolNameOf ⟨none, none, none⟩) = none := by
    unfold execNs
    rw [hmat]
    rfl
  refine ⟨rfl, rfl, rfl, by decide, ?_, ?_⟩
  · rw [step_no_raise_eq pyExec debug initialState ⟨none, none, none⟩ (by rw [hmat]),
      resolveAndRegister_notFound _ _ _ _ _ (Or.inl hlookup)]
  · rw [step_no_raise_eq pyExec debug initialState ⟨none, none, none⟩ (by rw [hmat]),
      resolveAndRegister_notFound _ _ _ _ _ (Or.inl hlookup)]
    rfl

/-- Witness for C10 at a concrete oracle under which the empty script has
no effect: the all-fields-missing descriptor is skipped with the default
name. -/
theorem claim_C10_witness :
    (register_tool_from_script execOracleEmpty false initialState ⟨none, none, none⟩).2
      = RegOutcome.symbolNotFound
    ∧ toolNameOf ⟨none, none, none⟩ = "UnnamedTool" := by
  have h := claim_C10_missing_field_defaults execOracleEmpty false rfl
  exact ⟨h.2.2.2.2.1, h.1⟩

end SkyWorkMCP
